import Mathlib

/-!
Shallow embedding of the tea-brewing API's in-memory store
(`app/store/memory.py`) and of the route-level logic the specification's
claims refer to (`app/routes/brews.py`, `app/routes/teapots.py`).

Python `dict[str, T]` collections are modelled as insertion-ordered
association lists (`List T` keyed by the entity's `id` field): assignment
to an existing key replaces the value in place, assignment to a fresh key
appends, `del` removes the single matching entry, `.values()` is the list
in insertion order.  Timestamps are modelled as natural numbers, ids as
strings.  Each store method runs under the store's single lock, so each
store operation is one atomic function here; route handlers that make
several store calls are modelled as sequences of such atomic steps, with
interleaving points between the calls.
-/

namespace TeaApi

/-- `TeapotMaterial` enum from `app/schemas/teapot.py`. -/
inductive TeapotMaterial where
  | ceramic | castIron | glass | porcelain | clay | stainlessSteel
deriving DecidableEq, Repr

/-- `TeapotStyle` enum from `app/schemas/teapot.py`. -/
inductive TeapotStyle where
  | kyusu | gaiwan | english | moroccan | turkish | yixing
deriving DecidableEq, Repr

/-- `TeaType` enum from `app/schemas/tea.py`. -/
inductive TeaType where
  | green | black | oolong | white | puerh | herbal | rooibos
deriving DecidableEq, Repr

/-- `CaffeineLevel` enum from `app/schemas/tea.py`. -/
inductive CaffeineLevel where
  | none | low | medium | high
deriving DecidableEq, Repr

/-- `BrewStatus` enum from `app/schemas/brew.py`. -/
inductive BrewStatus where
  | preparing | steeping | ready | served | cold
deriving DecidableEq, Repr

/-- `Teapot` entity (`app/schemas/teapot.py`). -/
structure Teapot where
  id : String
  name : String
  material : TeapotMaterial
  capacity_ml : Nat
  style : TeapotStyle
  description : Option String
  created_at : Nat
  updated_at : Nat
deriving DecidableEq, Repr

/-- `Tea` entity (`app/schemas/tea.py`). -/
structure Tea where
  id : String
  name : String
  type : TeaType
  origin : Option String
  caffeine_level : CaffeineLevel
  steep_temp_celsius : Nat
  steep_time_seconds : Nat
  description : Option String
  created_at : Nat
  updated_at : Nat
deriving DecidableEq, Repr

/-- `Brew` entity (`app/schemas/brew.py`). -/
structure Brew where
  id : String
  teapot_id : String
  tea_id : String
  status : BrewStatus
  water_temp_celsius : Nat
  notes : Option String
  started_at : Nat
  completed_at : Option Nat
  created_at : Nat
  updated_at : Nat
deriving DecidableEq, Repr

/-- `Steep` entity (`app/schemas/steep.py`); no `updated_at` field. -/
structure Steep where
  id : String
  brew_id : String
  steep_number : Nat
  duration_seconds : Nat
  rating : Option Nat
  notes : Option String
  created_at : Nat
deriving DecidableEq, Repr

/-- Python dict assignment `d[key x] = x` on an insertion-ordered dict:
replace in place when the key is present, append when it is fresh. -/
def dictSet (key : α → String) (l : List α) (x : α) : List α :=
  if l.any (fun y => key y == key x) then
    l.map (fun y => if key y == key x then x else y)
  else
    l ++ [x]

/-- Python `d.get(i)`: first (only) entry with the key. -/
def dictGet (key : α → String) (l : List α) (i : String) : Option α :=
  l.find? (fun y => key y == i)

/-- Python `del d[i]` on a dict: drop the entry with key `i`. -/
def dictDelete (key : α → String) (l : List α) (i : String) : List α :=
  l.filter (fun y => key y != i)

/-- The four keyed collections of `MemoryStore` (`app/store/memory.py`). -/
structure MemoryStore where
  teapots : List Teapot
  teas : List Tea
  brews : List Brew
  steeps : List Steep
deriving DecidableEq, Repr

/-- The empty store (`MemoryStore.__init__` / `clear`). -/
def MemoryStore.empty : MemoryStore :=
  { teapots := [], teas := [], brews := [], steeps := [] }

/-- `TeapotQuery` (`app/schemas/teapot.py`): page, limit, optional filters. -/
structure TeapotQuery where
  page : Nat
  limit : Nat
  material : Option TeapotMaterial
  style : Option TeapotStyle
deriving DecidableEq, Repr

/-- `TeaQuery` (`app/schemas/tea.py`). -/
structure TeaQuery where
  page : Nat
  limit : Nat
  type : Option TeaType
  caffeine_level : Option CaffeineLevel
deriving DecidableEq, Repr

/-- `BrewQuery` (`app/schemas/brew.py`); the id filters are strings. -/
structure BrewQuery where
  page : Nat
  limit : Nat
  status : Option BrewStatus
  teapot_id : Option String
  tea_id : Option String
deriving DecidableEq, Repr

/-- `PaginationQuery` (`app/schemas/common.py`). -/
structure PaginationQuery where
  page : Nat
  limit : Nat
deriving DecidableEq, Repr

/-- `MemoryStore.list_teapots`: filter by material then style (a filter is
applied only when the optional field is set — enum values are never falsy),
`total` before slicing, then the slice `items[start:start+limit]`. -/
def MemoryStore.list_teapots (st : MemoryStore) (q : TeapotQuery) :
    List Teapot × Nat :=
  let items := st.teapots
  let items : List Teapot := match q.material with
    | some m => items.filter (fun t => t.material == m)
    | none => items
  let items : List Teapot := match q.style with
    | some s => items.filter (fun t => t.style == s)
    | none => items
  ((items.drop ((q.page - 1) * q.limit)).take q.limit, items.length)

/-- `MemoryStore.create_teapot`: `self._teapots[teapot.id] = teapot`. -/
def MemoryStore.create_teapot (st : MemoryStore) (t : Teapot) : MemoryStore :=
  { st with teapots := dictSet Teapot.id st.teapots t }

/-- `MemoryStore.get_teapot`: `self._teapots.get(id)`; read-only. -/
def MemoryStore.get_teapot (st : MemoryStore) (i : String) : Option Teapot :=
  dictGet Teapot.id st.teapots i

/-- `MemoryStore.update_teapot`: `self._teapots[teapot.id] = teapot`
(unconditional keyed assignment, same statement as create). -/
def MemoryStore.update_teapot (st : MemoryStore) (t : Teapot) : MemoryStore :=
  { st with teapots := dictSet Teapot.id st.teapots t }

/-- `MemoryStore.delete_teapot`: `False` if absent, else delete and `True`. -/
def MemoryStore.delete_teapot (st : MemoryStore) (i : String) :
    Bool × MemoryStore :=
  if st.teapots.any (fun t => t.id == i) then
    (true, { st with teapots := dictDelete Teapot.id st.teapots i })
  else
    (false, st)

/-- `MemoryStore.list_teas`: filter by type then caffeine level, then
paginate exactly as `list_teapots`. -/
def MemoryStore.list_teas (st : MemoryStore) (q : TeaQuery) :
    List Tea × Nat :=
  let items := st.teas
  let items : List Tea := match q.type with
    | some ty => items.filter (fun t => t.type == ty)
    | none => items
  let items : List Tea := match q.caffeine_level with
    | some c => items.filter (fun t => t.caffeine_level == c)
    | none => items
  ((items.drop ((q.page - 1) * q.limit)).take q.limit, items.length)

/-- `MemoryStore.create_tea`. -/
def MemoryStore.create_tea (st : MemoryStore) (t : Tea) : MemoryStore :=
  { st with teas := dictSet Tea.id st.teas t }

/-- `MemoryStore.get_tea`; read-only. -/
def MemoryStore.get_tea (st : MemoryStore) (i : String) : Option Tea :=
  dictGet Tea.id st.teas i

/-- `MemoryStore.update_tea`: unconditional keyed assignment. -/
def MemoryStore.update_tea (st : MemoryStore) (t : Tea) : MemoryStore :=
  { st with teas := dictSet Tea.id st.teas t }

/-- `MemoryStore.delete_tea`. -/
def MemoryStore.delete_tea (st : MemoryStore) (i : String) :
    Bool × MemoryStore :=
  if st.teas.any (fun t => t.id == i) then
    (true, { st with teas := dictDelete Tea.id st.teas i })
  else
    (false, st)

/-- `MemoryStore.list_brews`: filters for status, teapot id and tea id.
The Python guards are `if query.status:` etc. — truthiness tests, so a
string filter set to the empty string is skipped like an absent one
(enum filters are only falsy when `None`). -/
def MemoryStore.list_brews (st : MemoryStore) (q : BrewQuery) :
    List Brew × Nat :=
  let items := st.brews
  let items : List Brew := match q.status with
    | some s => items.filter (fun b => b.status == s)
    | none => items
  let items : List Brew := match q.teapot_id with
    | some tid => if tid != "" then items.filter (fun b => b.teapot_id == tid) else items
    | none => items
  let items : List Brew := match q.tea_id with
    | some tid => if tid != "" then items.filter (fun b => b.tea_id == tid) else items
    | none => items
  ((items.drop ((q.page - 1) * q.limit)).take q.limit, items.length)

/-- `MemoryStore.list_brews_by_teapot`: equality filter on teapot id, then
the same pagination. -/
def MemoryStore.list_brews_by_teapot (st : MemoryStore) (teapot_id : String)
    (q : PaginationQuery) : List Brew × Nat :=
  let items := st.brews.filter (fun b => b.teapot_id == teapot_id)
  ((items.drop ((q.page - 1) * q.limit)).take q.limit, items.length)

/-- `MemoryStore.create_brew`. -/
def MemoryStore.create_brew (st : MemoryStore) (b : Brew) : MemoryStore :=
  { st with brews := dictSet Brew.id st.brews b }

/-- `MemoryStore.get_brew`; read-only. -/
def MemoryStore.get_brew (st : MemoryStore) (i : String) : Option Brew :=
  dictGet Brew.id st.brews i

/-- `MemoryStore.update_brew`: unconditional keyed assignment. -/
def MemoryStore.update_brew (st : MemoryStore) (b : Brew) : MemoryStore :=
  { st with brews := dictSet Brew.id st.brews b }

/-- `MemoryStore.delete_brew`: `False` if absent; otherwise remove the brew
and, in the same locked operation, rebuild `_steeps` keeping only steeps
whose `brew_id` differs from the deleted id. -/
def MemoryStore.delete_brew (st : MemoryStore) (i : String) :
    Bool × MemoryStore :=
  if st.brews.any (fun b => b.id == i) then
    (true, { st with
      brews := dictDelete Brew.id st.brews i,
      steeps := st.steeps.filter (fun s => s.brew_id != i) })
  else
    (false, st)

/-- `MemoryStore.create_steep`. -/
def MemoryStore.create_steep (st : MemoryStore) (s : Steep) : MemoryStore :=
  { st with steeps := dictSet Steep.id st.steeps s }

/-- `MemoryStore.get_next_steep_number`: filter this brew's steeps; 1 when
there are none, else `max(steep_number) + 1`.  The body only reads state,
so the method returns the store unchanged alongside the number. -/
def MemoryStore.get_next_steep_number (st : MemoryStore) (brew_id : String) :
    Nat × MemoryStore :=
  let existing := st.steeps.filter (fun s => s.brew_id == brew_id)
  if existing.isEmpty then (1, st)
  else ((existing.map Steep.steep_number).foldr max 0 + 1, st)

/-- `MemoryStore.get_steep`; read-only. -/
def MemoryStore.get_steep (st : MemoryStore) (i : String) : Option Steep :=
  dictGet Steep.id st.steeps i

/-! ### Route-level logic (`app/routes/brews.py`, `app/routes/teapots.py`)

Only the paths the claims talk about are modelled: the request body has
already passed pydantic validation (the routes' `ValidationError` branches
reject malformed bodies before any store call), and the route receives the
current wall-clock instant `now` and the freshly generated uuid as
parameters. -/

/-- `ErrorResponse` (`app/schemas/common.py`), without the optional
field-detail map, which the claims do not mention. -/
structure ErrorResponse where
  code : String
  message : String
deriving DecidableEq, Repr

/-- `CreateBrewRequest` (`app/schemas/brew.py`): a validated body; the
water temperature, when present, was checked to lie in 60–100. -/
structure CreateBrewRequest where
  teapot_id : String
  tea_id : String
  water_temp_celsius : Option Nat
  notes : Option String
deriving DecidableEq, Repr

/-- Outcome of the `POST /brews` handler: HTTP status plus either an error
envelope or the created brew. -/
inductive CreateBrewOutcome where
  | err (status : Nat) (e : ErrorResponse)
  | created (b : Brew)
deriving DecidableEq, Repr

/-- `create_brew` route (`app/routes/brews.py` lines 63–117), from the
point where the body has validated: check the teapot exists (else 400
NOT_FOUND "Teapot not found"), check the tea exists (else 400 NOT_FOUND
"Tea not found"), compute the water temperature with the Python truthiness
test `data.water_temp_celsius if data.water_temp_celsius else
tea.steep_temp_celsius` (falsy = absent or zero), build the brew with
status `preparing` and `started_at = created_at = updated_at = now`, and
insert it. -/
def Routes.create_brew (st : MemoryStore) (data : CreateBrewRequest)
    (now : Nat) (newId : String) : CreateBrewOutcome × MemoryStore :=
  match st.get_teapot data.teapot_id with
  | none => (.err 400 ⟨"NOT_FOUND", "Teapot not found"⟩, st)
  | some _ =>
    match st.get_tea data.tea_id with
    | none => (.err 400 ⟨"NOT_FOUND", "Tea not found"⟩, st)
    | some tea =>
      let water_temp : Nat := match data.water_temp_celsius with
        | some v => if v != 0 then v else tea.steep_temp_celsius
        | none => tea.steep_temp_celsius
      let brew : Brew :=
        { id := newId, teapot_id := data.teapot_id, tea_id := data.tea_id,
          status := .preparing, water_temp_celsius := water_temp,
          notes := data.notes, started_at := now, completed_at := none,
          created_at := now, updated_at := now }
      (.created brew, st.create_brew brew)

/-- `PatchTeapotRequest` under pydantic's `exclude_unset=True` dump: the
outer `Option` is "field present in the patch body".  `description` is the
nullable teapot field, so its supplied value is itself optional; for the
other fields an explicitly supplied `null` would make the merged record
fail `Teapot.model_validate`, so a successful patch carries a proper
value. -/
structure PatchTeapotRequest where
  name : Option String
  material : Option TeapotMaterial
  capacity_ml : Option Nat
  style : Option TeapotStyle
  description : Option (Option String)
deriving DecidableEq, Repr

/-- The overlay `brew_data.update(update_data)` of `patch_teapot` in
record form: exactly the supplied fields replace the dumped existing
fields, `id` and `created_at` come from the existing record (they are not
patchable), and `updated_at` is restamped. -/
def patchedTeapot (existing : Teapot) (data : PatchTeapotRequest)
    (now : Nat) : Teapot :=
  { id := existing.id,
    name := data.name.getD existing.name,
    material := data.material.getD existing.material,
    capacity_ml := data.capacity_ml.getD existing.capacity_ml,
    style := data.style.getD existing.style,
    description := match data.description with
      | some d => d
      | none => existing.description,
    created_at := existing.created_at,
    updated_at := now }

/-- `patch_teapot` route (`app/routes/teapots.py` lines 163–202), from the
point where the body has validated: 404 (modelled as `none`) when the id
is absent; otherwise overlay exactly the supplied fields on a dump of the
existing record, stamp `updated_at = now`, revalidate and store. -/
def Routes.patch_teapot (st : MemoryStore) (i : String)
    (data : PatchTeapotRequest) (now : Nat) : Option Teapot × MemoryStore :=
  match st.get_teapot i with
  | none => (none, st)
  | some existing =>
    let teapot := patchedTeapot existing data now
    (some teapot, st.update_teapot teapot)

/-- `PatchBrewRequest` under `exclude_unset=True`: `status` must carry a
proper value when present (a supplied `null` would fail the merged
revalidation); `notes` and `completed_at` are nullable, so a present field
may carry an explicit `null`. -/
structure PatchBrewRequest where
  status : Option BrewStatus
  notes : Option (Option String)
  completed_at : Option (Option Nat)
deriving DecidableEq, Repr

/-- The overlay of `patch_brew` in record form: only `status`, `notes` and
`completed_at` are patchable; every other field is copied from the
existing record, and `updated_at` is restamped. -/
def patchedBrew (existing : Brew) (data : PatchBrewRequest) (now : Nat) :
    Brew :=
  { id := existing.id,
    teapot_id := existing.teapot_id,
    tea_id := existing.tea_id,
    status := data.status.getD existing.status,
    water_temp_celsius := existing.water_temp_celsius,
    notes := match data.notes with
      | some n => n
      | none => existing.notes,
    started_at := existing.started_at,
    completed_at := match data.completed_at with
      | some c => c
      | none => existing.completed_at,
    created_at := existing.created_at,
    updated_at := now }

/-- `patch_brew` route (`app/routes/brews.py` lines 141–180), from the
point where the body has validated: 404 (modelled as `none`) when the id
is absent; otherwise overlay the supplied fields, stamp
`updated_at = now`, revalidate and store. -/
def Routes.patch_brew (st : MemoryStore) (i : String)
    (data : PatchBrewRequest) (now : Nat) : Option Brew × MemoryStore :=
  match st.get_brew i with
  | none => (none, st)
  | some existing =>
    let brew := patchedBrew existing data now
    (some brew, st.update_brew brew)

/-! ### The steep-creation handler as an interleaved two-phase program

`create_steep` (`app/routes/brews.py` lines 249–295) makes two separate
store calls after validation: `store.get_next_steep_number(brew_id)` and
then `store.create_steep(steep)`.  Each call holds the store lock for its
own duration only — the lock is released between the two — so a handler
is modelled as a thread that takes two atomic steps on the shared store,
and concurrent handlers interleave at the boundary between the steps. -/

/-- The validated inputs of one steep-creation request: the generated
steep uuid, the validated body fields, and the wall-clock instant. -/
structure SteepParams where
  sid : String
  duration_seconds : Nat
  rating : Option Nat
  notes : Option String
  now : Nat
deriving DecidableEq, Repr

/-- The `Steep` the handler constructs once it holds a steep number. -/
def mkSteep (brew_id : String) (p : SteepParams) (n : Nat) : Steep :=
  { id := p.sid, brew_id := brew_id, steep_number := n,
    duration_seconds := p.duration_seconds, rating := p.rating,
    notes := p.notes, created_at := p.now }

/-- Program counter of one steep-creation handler: before the
`get_next_steep_number` call, between the two calls (holding the number it
was given), or finished. -/
inductive ThreadState where
  | ready
  | mid (n : Nat)
  | done (n : Nat)
deriving DecidableEq, Repr

/-- One atomic step of a steep-creation handler: each case performs
exactly one locked store operation. -/
def threadStep (brew_id : String) (p : SteepParams) :
    ThreadState → MemoryStore → ThreadState × MemoryStore
  | .ready, st =>
    let r := st.get_next_steep_number brew_id
    (.mid r.fst, r.snd)
  | .mid n, st => (.done n, st.create_steep (mkSteep brew_id p n))
  | .done n, st => (.done n, st)

/-- Two steep-creation handlers for the same brew racing on one store. -/
structure RaceState where
  t1 : ThreadState
  t2 : ThreadState
  store : MemoryStore
deriving DecidableEq, Repr

/-- Scheduler step: `true` runs thread 1, `false` runs thread 2. -/
def raceStep (brew_id : String) (p1 p2 : SteepParams) (s : RaceState)
    (choice : Bool) : RaceState :=
  if choice then
    let r := threadStep brew_id p1 s.t1 s.store
    { s with t1 := r.fst, store := r.snd }
  else
    let r := threadStep brew_id p2 s.t2 s.store
    { s with t2 := r.fst, store := r.snd }

/-- Run both handlers from their start under a given schedule. -/
def runRace (brew_id : String) (p1 p2 : SteepParams) (init : MemoryStore)
    (sched : List Bool) : RaceState :=
  sched.foldl (raceStep brew_id p1 p2) ⟨.ready, .ready, init⟩

/-- The steep numbers currently recorded for one brew, in store order. -/
def steepNums (st : MemoryStore) (brew_id : String) : List Nat :=
  (st.steeps.filter (fun s => s.brew_id == brew_id)).map Steep.steep_number

/-- The brew's steep numbers are exactly `1, …, k`, each once: no gaps and
no repeats. -/
def SteepNumbersGapFree (st : MemoryStore) (brew_id : String) (k : Nat) : Prop :=
  (steepNums st brew_id).Nodup ∧
    ∀ m, m ∈ steepNums st brew_id ↔ (1 ≤ m ∧ m ≤ k)

/-! ### Claim-side matching predicates

These follow the specification's description of filtering ("exact-match
equality on zero or more optional filter fields applied as a logical AND;
absent filter fields impose no constraint") so that the list operations
can be compared against them. -/

/-- AND of the supplied teapot filters. -/
def teapotMatches (q : TeapotQuery) : Teapot → Bool := fun t =>
  (match q.material with | some m => t.material == m | none => true) &&
  (match q.style with | some s => t.style == s | none => true)

/-- AND of the supplied tea filters. -/
def teaMatches (q : TeaQuery) : Tea → Bool := fun t =>
  (match q.type with | some ty => t.type == ty | none => true) &&
  (match q.caffeine_level with | some c => t.caffeine_level == c | none => true)

/-- AND of the effective brew filters as the code applies them: a supplied
id filter whose value is the empty string is falsy in Python, so it
imposes no constraint. -/
def brewMatches (q : BrewQuery) : Brew → Bool := fun b =>
  (match q.status with | some s => b.status == s | none => true) &&
  (match q.teapot_id with
    | some tid => if tid != "" then b.teapot_id == tid else true
    | none => true) &&
  (match q.tea_id with
    | some tid => if tid != "" then b.tea_id == tid else true
    | none => true)

/-- The claim's literal matching predicate for brews: equality against
every supplied filter field, with no truthiness exception. -/
def brewMatchesLiteral (q : BrewQuery) (b : Brew) : Bool :=
  (match q.status with | some s => b.status == s | none => true) &&
  (match q.teapot_id with | some tid => b.teapot_id == tid | none => true) &&
  (match q.tea_id with | some tid => b.tea_id == tid | none => true)

/-! ### Helper lemmas about the dict model -/

theorem find?_map_upd (key : α → String) (x : α) :
    ∀ l : List α, l.any (fun y => key y == key x) = true →
      (l.map (fun y => if key y == key x then x else y)).find?
        (fun y => key y == key x) = some x := by
  intro l
  induction l with
  | nil => intro h; simp at h
  | cons a t ih =>
    intro h
    by_cases ha : (key a == key x) = true
    · simp only [List.map_cons, if_pos ha]
      exact List.find?_cons_of_pos _ (by simp)
    · have hne : (key a == key x) = false := Bool.eq_false_iff.mpr ha
      have ht : t.any (fun y => key y == key x) = true := by
        simp only [List.any_cons, hne, Bool.false_or] at h
        exact h
      simp only [List.map_cons, if_neg ha]
      have hstep :
          List.find? (fun y => key y == key x)
            (a :: List.map (fun y => if key y == key x then x else y) t) =
          List.find? (fun y => key y == key x)
            (List.map (fun y => if key y == key x then x else y) t) :=
        List.find?_cons_of_neg _ ha
      rw [hstep]
      exact ih ht

theorem find?_append_self (key : α → String) (x : α) :
    ∀ l : List α, l.any (fun y => key y == key x) = false →
      (l ++ [x]).find? (fun y => key y == key x) = some x := by
  intro l
  induction l with
  | nil => intro _; simp [List.find?_cons_of_pos]
  | cons a t ih =>
    intro h
    simp only [List.any_cons, Bool.or_eq_false_iff] at h
    rw [List.cons_append, List.find?_cons_of_neg _ (by simp [h.1])]
    exact ih h.2

/-- Looking up the key just assigned returns the assigned value, whether
the key was fresh or already present. -/
theorem dictGet_dictSet_self (key : α → String) (l : List α) (x : α) :
    dictGet key (dictSet key l x) (key x) = some x := by
  unfold dictGet dictSet
  by_cases h : l.any (fun y => key y == key x) = true
  · rw [if_pos h]; exact find?_map_upd key x l h
  · rw [if_neg h]
    exact find?_append_self key x l (by simpa using h)

/-- A successful lookup really has the requested key. -/
theorem dictGet_some_key (key : α → String) (l : List α) (i : String)
    (y : α) (h : dictGet key l i = some y) : key y = i := by
  have := List.find?_some h
  exact eq_of_beq this

/-- After deleting a key, looking it up fails. -/
theorem dictGet_dictDelete_self (key : α → String) (l : List α) (i : String) :
    dictGet key (dictDelete key l i) i = none := by
  unfold dictGet dictDelete
  rw [List.find?_eq_none]
  intro y hy
  have := (List.mem_filter.mp hy).2
  simpa using this

/-- Freshly assigning an absent key appends the entry. -/
theorem dictSet_fresh (key : α → String) (l : List α) (x : α)
    (h : dictGet key l (key x) = none) : dictSet key l x = l ++ [x] := by
  unfold dictGet at h
  rw [List.find?_eq_none] at h
  unfold dictSet
  rw [if_neg]
  intro hany
  rcases List.any_eq_true.mp hany with ⟨y, hy, hpy⟩
  exact h y hy hpy

/-- Every member of a list of naturals is bounded by the `foldr max 0`. -/
theorem le_foldr_max {l : List Nat} {x : Nat} (h : x ∈ l) :
    x ≤ l.foldr max 0 := by
  induction l with
  | nil => simp at h
  | cons a t ih =>
    rcases List.mem_cons.mp h with rfl | h'
    · exact Nat.le_max_left _ _
    · exact le_trans (ih h') (Nat.le_max_right _ _)

/-- On a nonempty list of naturals, `foldr max 0` is attained. -/
theorem foldr_max_mem : ∀ {l : List Nat}, l ≠ [] → l.foldr max 0 ∈ l := by
  intro l
  induction l with
  | nil => intro h; exact absurd rfl h
  | cons a t ih =>
    intro _
    cases t with
    | nil => simp
    | cons b u =>
      have hmem := ih (by simp)
      rcases max_choice a ((b :: u).foldr max 0) with h1 | h1
      · rw [List.foldr_cons, h1]
        exact List.mem_cons_self _ _
      · rw [List.foldr_cons, h1]
        exact List.mem_cons_of_mem _ hmem

/-! ### Concrete fixtures used by witnesses and counterexamples -/

/-- A concrete teapot. -/
def tp0 : Teapot :=
  { id := "tp1", name := "Pot", material := .ceramic, capacity_ml := 500,
    style := .english, description := none, created_at := 0, updated_at := 0 }

/-- A concrete tea with steep temperature 80. -/
def te0 : Tea :=
  { id := "te1", name := "Sencha", type := .green, origin := none,
    caffeine_level := .medium, steep_temp_celsius := 80,
    steep_time_seconds := 120, description := none,
    created_at := 0, updated_at := 0 }

/-- A concrete brew in teapot `tp1` with tea `te1`. -/
def br0 : Brew :=
  { id := "br1", teapot_id := "tp1", tea_id := "te1", status := .preparing,
    water_temp_celsius := 80, notes := none, started_at := 0,
    completed_at := none, created_at := 0, updated_at := 0 }

/-- A steep of brew `br1`, numbered 1. -/
def sp1 : Steep :=
  { id := "sp1", brew_id := "br1", steep_number := 1, duration_seconds := 30,
    rating := none, notes := none, created_at := 0 }

/-- A steep of a different brew `brX`. -/
def sp2 : Steep :=
  { id := "sp2", brew_id := "brX", steep_number := 1, duration_seconds := 45,
    rating := none, notes := none, created_at := 0 }

/-- A store holding `br0` and the two steeps. -/
def stC3 : MemoryStore :=
  { teapots := [tp0], teas := [te0], brews := [br0], steeps := [sp1, sp2] }

/-! ### Claim theorems -/

/-- C10: the store's `update_teapot`, `update_tea` and `update_brew` never
signal not-found: they store the entity keyed by its id regardless of
whether the id was present, so updating a non-existent id silently inserts
the entity (append to the collection) rather than failing. -/
theorem claim_C10_update_upsert (st : MemoryStore) (tp : Teapot) (te : Tea)
    (b : Brew) :
    ((st.update_teapot tp).get_teapot tp.id = some tp ∧
      (st.get_teapot tp.id = none →
        (st.update_teapot tp).teapots = st.teapots ++ [tp])) ∧
    ((st.update_tea te).get_tea te.id = some te ∧
      (st.get_tea te.id = none →
        (st.update_tea te).teas = st.teas ++ [te])) ∧
    ((st.update_brew b).get_brew b.id = some b ∧
      (st.get_brew b.id = none →
        (st.update_brew b).brews = st.brews ++ [b])) := by
  refine ⟨⟨?_, ?_⟩, ⟨?_, ?_⟩, ⟨?_, ?_⟩⟩
  · exact dictGet_dictSet_self Teapot.id st.teapots tp
  · intro h; exact dictSet_fresh Teapot.id st.teapots tp h
  · exact dictGet_dictSet_self Tea.id st.teas te
  · intro h; exact dictSet_fresh Tea.id st.teas te h
  · exact dictGet_dictSet_self Brew.id st.brews b
  · intro h; exact dictSet_fresh Brew.id st.brews b h

theorem claim_C10_witness :
    (MemoryStore.empty.update_teapot tp0).get_teapot "tp1" = some tp0 ∧
    (MemoryStore.empty.update_teapot tp0).teapots = [tp0] ∧
    (MemoryStore.empty.update_tea te0).teas = [te0] ∧
    (MemoryStore.empty.update_brew br0).brews = [br0] := by
  have h := claim_C10_update_upsert MemoryStore.empty tp0 te0 br0
  exact ⟨h.1.1, h.1.2 rfl, h.2.1.2 rfl, h.2.2.2 rfl⟩

/-- C9: deleting a teapot or a tea touches only its own collection — the
brews (dangling references included) and steeps present before the delete
are exactly those present after it, and the other collections are
untouched. -/
theorem claim_C9_delete_dangling (st : MemoryStore) (i : String) :
    ((st.delete_teapot i).2.teas = st.teas ∧
     (st.delete_teapot i).2.brews = st.brews ∧
     (st.delete_teapot i).2.steeps = st.steeps) ∧
    ((st.delete_tea i).2.teapots = st.teapots ∧
     (st.delete_tea i).2.brews = st.brews ∧
     (st.delete_tea i).2.steeps = st.steeps) := by
  constructor
  · refine ⟨?_, ?_, ?_⟩ <;>
      (simp only [MemoryStore.delete_teapot]; split <;> rfl)
  · refine ⟨?_, ?_, ?_⟩ <;>
      (simp only [MemoryStore.delete_tea]; split <;> rfl)

/-- C3: `delete_brew` returns `true` iff the brew existed; on success the
brew is gone, the steeps of that brew are removed (and only those, order
preserved) in the same store operation, and teapots/teas are untouched;
on failure the store is unchanged. -/
theorem claim_C3_delete_brew (st : MemoryStore) (i : String) :
    ((st.delete_brew i).1 = true ↔ ∃ b ∈ st.brews, b.id = i) ∧
    ((st.delete_brew i).1 = true →
      ((st.delete_brew i).2.get_brew i = none ∧
       (st.delete_brew i).2.steeps =
         st.steeps.filter (fun s => s.brew_id != i) ∧
       (∀ s ∈ st.steeps, s.brew_id ≠ i → s ∈ (st.delete_brew i).2.steeps) ∧
       (∀ s ∈ (st.delete_brew i).2.steeps, s ∈ st.steeps ∧ s.brew_id ≠ i) ∧
       (st.delete_brew i).2.teapots = st.teapots ∧
       (st.delete_brew i).2.teas = st.teas)) ∧
    ((st.delete_brew i).1 = false → (st.delete_brew i).2 = st) := by
  by_cases h : st.brews.any (fun b => b.id == i) = true
  · have hd : st.delete_brew i = (true, { st with
        brews := dictDelete Brew.id st.brews i,
        steeps := st.steeps.filter (fun s => s.brew_id != i) }) := by
      unfold MemoryStore.delete_brew; rw [if_pos h]
    rw [hd]
    refine ⟨?_, ?_, ?_⟩
    · constructor
      · intro _
        rcases List.any_eq_true.mp h with ⟨b, hb, hbi⟩
        exact ⟨b, hb, eq_of_beq hbi⟩
      · intro _; rfl
    · intro _
      refine ⟨?_, rfl, ?_, ?_, rfl, rfl⟩
      · exact dictGet_dictDelete_self Brew.id st.brews i
      · intro s hs hne
        exact List.mem_filter.mpr ⟨hs, bne_iff_ne.mpr hne⟩
      · intro s hs
        have hm := List.mem_filter.mp hs
        exact ⟨hm.1, bne_iff_ne.mp hm.2⟩
    · intro hfalse; exact absurd hfalse (by simp)
  · have hd : st.delete_brew i = (false, st) := by
      unfold MemoryStore.delete_brew; rw [if_neg h]
    rw [hd]
    refine ⟨?_, ?_, ?_⟩
    · constructor
      · intro hfalse; exact absurd hfalse (by simp)
      · rintro ⟨b, hb, hbi⟩
        exact absurd (List.any_eq_true.mpr ⟨b, hb, by simp [hbi]⟩) h
    · intro hfalse; exact absurd hfalse (by simp)
    · intro _; rfl

theorem claim_C3_witness :
    (stC3.delete_brew "br1").1 = true ∧
    (stC3.delete_brew "br1").2.get_brew "br1" = none ∧
    sp2 ∈ (stC3.delete_brew "br1").2.steeps := by
  have h := claim_C3_delete_brew stC3 "br1"
  have ht : (stC3.delete_brew "br1").1 = true :=
    h.1.mpr ⟨br0, by simp [stC3], rfl⟩
  refine ⟨ht, (h.2.1 ht).1, (h.2.1 ht).2.2.1 sp2 (by simp [stC3]) (by decide)⟩

/-- C2: `get_next_steep_number` leaves the store unchanged, returns 1 when
the brew has no steeps, and otherwise returns a number strictly above
every existing steep number of the brew and equal to one of them plus one
— that is, the maximum plus one. -/
theorem claim_C2_next_steep_number (st : MemoryStore) (bid : String) :
    (st.get_next_steep_number bid).2 = st ∧
    ((∀ s ∈ st.steeps, s.brew_id ≠ bid) →
      (st.get_next_steep_number bid).1 = 1) ∧
    (∀ s ∈ st.steeps, s.brew_id = bid →
      s.steep_number < (st.get_next_steep_number bid).1) ∧
    ((∃ s ∈ st.steeps, s.brew_id = bid) →
      ∃ s ∈ st.steeps, s.brew_id = bid ∧
        (st.get_next_steep_number bid).1 = s.steep_number + 1) := by
  refine ⟨?_, ?_, ?_, ?_⟩
  · simp only [MemoryStore.get_next_steep_number]
    split <;> rfl
  · intro h
    have hnil : st.steeps.filter (fun s => s.brew_id == bid) = [] := by
      rw [List.filter_eq_nil_iff]
      intro s hs
      simp [h s hs]
    simp [MemoryStore.get_next_steep_number, hnil]
  · intro s hs hbid
    have hmem : s ∈ st.steeps.filter (fun s => s.brew_id == bid) :=
      List.mem_filter.mpr ⟨hs, by simp [hbid]⟩
    have hempty :
        (st.steeps.filter (fun s => s.brew_id == bid)).isEmpty = false := by
      rw [List.isEmpty_eq_false]
      intro hnil
      rw [hnil] at hmem
      exact List.not_mem_nil s hmem
    have hle : s.steep_number ≤
        ((st.steeps.filter (fun s => s.brew_id == bid)).map
          Steep.steep_number).foldr max 0 :=
      le_foldr_max (List.mem_map_of_mem _ hmem)
    simp only [MemoryStore.get_next_steep_number, hempty, Bool.false_eq_true,
      if_false]
    exact Nat.lt_succ_of_le hle
  · rintro ⟨s, hs, hbid⟩
    have hmem : s ∈ st.steeps.filter (fun s => s.brew_id == bid) :=
      List.mem_filter.mpr ⟨hs, by simp [hbid]⟩
    have hempty :
        (st.steeps.filter (fun s => s.brew_id == bid)).isEmpty = false := by
      rw [List.isEmpty_eq_false]
      intro hnil
      rw [hnil] at hmem
      exact List.not_mem_nil s hmem
    have hne : (st.steeps.filter (fun s => s.brew_id == bid)).map
        Steep.steep_number ≠ [] := by
      intro hnil
      rw [List.map_eq_nil_iff] at hnil
      rw [hnil] at hmem
      exact List.not_mem_nil s hmem
    rcases List.mem_map.mp (foldr_max_mem hne) with ⟨t, htmem, hteq⟩
    have htf := List.mem_filter.mp htmem
    refine ⟨t, htf.1, eq_of_beq htf.2, ?_⟩
    simp only [MemoryStore.get_next_steep_number, hempty, Bool.false_eq_true,
      if_false]
    rw [hteq]

theorem claim_C2_witness :
    (stC3.get_next_steep_number "brZ").1 = 1 ∧
    sp1.steep_number < (stC3.get_next_steep_number "br1").1 ∧
    (stC3.get_next_steep_number "br1").2 = stC3 := by
  have h1 := claim_C2_next_steep_number stC3 "brZ"
  have h2 := claim_C2_next_steep_number stC3 "br1"
  exact ⟨h1.2.1 (by decide), h2.2.2.1 sp1 (by simp [stC3]) (by decide), h2.1⟩

/-- C4: when the referenced teapot and tea both exist, a brew created
without a water temperature gets the tea's steep temperature, and one
created with an explicit value in 60–100 keeps exactly that value. -/
theorem claim_C4_water_temp (st : MemoryStore) (data : CreateBrewRequest)
    (now : Nat) (newId : String) (tp : Teapot) (tea : Tea)
    (htp : st.get_teapot data.teapot_id = some tp)
    (htea : st.get_tea data.tea_id = some tea) :
    (data.water_temp_celsius = none →
      ∃ b, (Routes.create_brew st data now newId).1 = .created b ∧
        b.water_temp_celsius = tea.steep_temp_celsius) ∧
    (∀ v, data.water_temp_celsius = some v → 60 ≤ v → v ≤ 100 →
      ∃ b, (Routes.create_brew st data now newId).1 = .created b ∧
        b.water_temp_celsius = v) := by
  constructor
  · intro hnone
    have hb : (Routes.create_brew st data now newId).1 = .created
        { id := newId, teapot_id := data.teapot_id, tea_id := data.tea_id,
          status := .preparing,
          water_temp_celsius := tea.steep_temp_celsius,
          notes := data.notes, started_at := now, completed_at := none,
          created_at := now, updated_at := now } := by
      simp [Routes.create_brew, htp, htea, hnone]
    exact ⟨_, hb, rfl⟩
  · intro v hv h60 _
    have hvne : (v != 0) = true := by
      simp only [bne_iff_ne, ne_eq]
      omega
    have hb : (Routes.create_brew st data now newId).1 = .created
        { id := newId, teapot_id := data.teapot_id, tea_id := data.tea_id,
          status := .preparing, water_temp_celsius := v,
          notes := data.notes, started_at := now, completed_at := none,
          created_at := now, updated_at := now } := by
      simp [Routes.create_brew, htp, htea, hv, hvne]
    exact ⟨_, hb, rfl⟩

theorem claim_C4_witness :
    (∃ b, (Routes.create_brew stC3 ⟨"tp1", "te1", none, none⟩ 5 "brA").1 =
        .created b ∧ b.water_temp_celsius = 80) ∧
    (∃ b, (Routes.create_brew stC3 ⟨"tp1", "te1", some 75, none⟩ 5 "brB").1 =
        .created b ∧ b.water_temp_celsius = 75) := by
  have h1 := claim_C4_water_temp stC3 ⟨"tp1", "te1", none, none⟩ 5 "brA"
    tp0 te0 (by decide) (by decide)
  have h2 := claim_C4_water_temp stC3 ⟨"tp1", "te1", some 75, none⟩ 5 "brB"
    tp0 te0 (by decide) (by decide)
  exact ⟨h1.1 rfl, h2.2 75 rfl (by decide) (by decide)⟩

/-- C8: on a well-formed brew-creation request, a missing teapot id yields
a 400 `NOT_FOUND` error with message "Teapot not found" and an unchanged
store; an existing teapot with a missing tea id yields the analogous
"Tea not found" error with an unchanged store. -/
theorem claim_C8_create_brew_errors (st : MemoryStore)
    (data : CreateBrewRequest) (now : Nat) (newId : String) :
    (st.get_teapot data.teapot_id = none →
      (Routes.create_brew st data now newId).1 =
        .err 400 ⟨"NOT_FOUND", "Teapot not found"⟩ ∧
      (Routes.create_brew st data now newId).2 = st) ∧
    (∀ tp, st.get_teapot data.teapot_id = some tp →
      st.get_tea data.tea_id = none →
      (Routes.create_brew st data now newId).1 =
        .err 400 ⟨"NOT_FOUND", "Tea not found"⟩ ∧
      (Routes.create_brew st data now newId).2 = st) := by
  constructor
  · intro h
    constructor <;> simp [Routes.create_brew, h]
  · intro tp htp htea
    constructor <;> simp [Routes.create_brew, htp, htea]

theorem claim_C8_witness :
    (Routes.create_brew stC3 ⟨"nope", "te1", none, none⟩ 5 "brC").1 =
      .err 400 ⟨"NOT_FOUND", "Teapot not found"⟩ ∧
    (Routes.create_brew stC3 ⟨"nope", "te1", none, none⟩ 5 "brC").2 = stC3 ∧
    (Routes.create_brew stC3 ⟨"tp1", "nope", none, none⟩ 5 "brD").1 =
      .err 400 ⟨"NOT_FOUND", "Tea not found"⟩ ∧
    (Routes.create_brew stC3 ⟨"tp1", "nope", none, none⟩ 5 "brD").2 = stC3 := by
  have h1 := (claim_C8_create_brew_errors stC3 ⟨"nope", "te1", none, none⟩
    5 "brC").1 (by decide)
  have h2 := (claim_C8_create_brew_errors stC3 ⟨"tp1", "nope", none, none⟩
    5 "brD").2 tp0 (by decide) (by decide)
  exact ⟨h1.1, h1.2, h2.1, h2.2⟩

/-- C5: a successful PATCH of an existing teapot or brew keeps every
omitted field at its prior value, overwrites every present field with the
supplied value (an explicit null included, for nullable fields), keeps
`id` and `created_at`, stamps `updated_at` with the patch instant (so it
strictly increases whenever the clock has advanced past the stored
value), and stores the result under the same id. -/
theorem claim_C5_patch_semantics (st : MemoryStore) (it ib : String)
    (now : Nat) (dtp : PatchTeapotRequest) (dbr : PatchBrewRequest) :
    (∀ e, st.get_teapot it = some e →
      ∃ t, (Routes.patch_teapot st it dtp now).1 = some t ∧
        t.id = e.id ∧ t.created_at = e.created_at ∧ t.updated_at = now ∧
        (e.updated_at < now → e.updated_at < t.updated_at) ∧
        (dtp.name = none → t.name = e.name) ∧
        (∀ v, dtp.name = some v → t.name = v) ∧
        (dtp.material = none → t.material = e.material) ∧
        (∀ v, dtp.material = some v → t.material = v) ∧
        (dtp.capacity_ml = none → t.capacity_ml = e.capacity_ml) ∧
        (∀ v, dtp.capacity_ml = some v → t.capacity_ml = v) ∧
        (dtp.style = none → t.style = e.style) ∧
        (∀ v, dtp.style = some v → t.style = v) ∧
        (dtp.description = none → t.description = e.description) ∧
        (∀ v, dtp.description = some v → t.description = v) ∧
        (Routes.patch_teapot st it dtp now).2.get_teapot it = some t) ∧
    (∀ e, st.get_brew ib = some e →
      ∃ b, (Routes.patch_brew st ib dbr now).1 = some b ∧
        b.id = e.id ∧ b.created_at = e.created_at ∧ b.updated_at = now ∧
        b.teapot_id = e.teapot_id ∧ b.tea_id = e.tea_id ∧
        b.water_temp_celsius = e.water_temp_celsius ∧
        b.started_at = e.started_at ∧
        (e.updated_at < now → e.updated_at < b.updated_at) ∧
        (dbr.status = none → b.status = e.status) ∧
        (∀ v, dbr.status = some v → b.status = v) ∧
        (dbr.notes = none → b.notes = e.notes) ∧
        (∀ v, dbr.notes = some v → b.notes = v) ∧
        (dbr.completed_at = none → b.completed_at = e.completed_at) ∧
        (∀ v, dbr.completed_at = some v → b.completed_at = v) ∧
        (Routes.patch_brew st ib dbr now).2.get_brew ib = some b) := by
  constructor
  · intro e he
    have hei : e.id = it := dictGet_some_key Teapot.id st.teapots it e he
    subst hei
    refine ⟨patchedTeapot e dtp now, ?_, rfl, rfl, rfl, ?_, ?_, ?_, ?_, ?_,
      ?_, ?_, ?_, ?_, ?_, ?_, ?_⟩
    · simp [Routes.patch_teapot, he]
    · intro h; exact h
    · intro h; simp [patchedTeapot, h]
    · intro v hv; simp [patchedTeapot, hv]
    · intro h; simp [patchedTeapot, h]
    · intro v hv; simp [patchedTeapot, hv]
    · intro h; simp [patchedTeapot, h]
    · intro v hv; simp [patchedTeapot, hv]
    · intro h; simp [patchedTeapot, h]
    · intro v hv; simp [patchedTeapot, hv]
    · intro h; simp [patchedTeapot, h]
    · intro v hv; simp [patchedTeapot, hv]
    · have hst : (Routes.patch_teapot st e.id dtp now).2 =
          st.update_teapot (patchedTeapot e dtp now) := by
        simp [Routes.patch_teapot, he]
      rw [hst]
      exact dictGet_dictSet_self Teapot.id st.teapots (patchedTeapot e dtp now)
  · intro e he
    have hei : e.id = ib := dictGet_some_key Brew.id st.brews ib e he
    subst hei
    refine ⟨patchedBrew e dbr now, ?_, rfl, rfl, rfl, rfl, rfl, rfl, rfl,
      ?_, ?_, ?_, ?_, ?_, ?_, ?_, ?_⟩
    · simp [Routes.patch_brew, he]
    · intro h; exact h
    · intro h; simp [patchedBrew, h]
    · intro v hv; simp [patchedBrew, hv]
    · intro h; simp [patchedBrew, h]
    · intro v hv; simp [patchedBrew, hv]
    · intro h; simp [patchedBrew, h]
    · intro v hv; simp [patchedBrew, hv]
    · have hst : (Routes.patch_brew st e.id dbr now).2 =
          st.update_brew (patchedBrew e dbr now) := by
        simp [Routes.patch_brew, he]
      rw [hst]
      exact dictGet_dictSet_self Brew.id st.brews (patchedBrew e dbr now)

theorem claim_C5_witness :
    (∃ t, (Routes.patch_teapot stC3 "tp1"
        ⟨some "New", none, none, none, some none⟩ 7).1 = some t ∧
      t.name = "New" ∧ t.description = none ∧ t.created_at = tp0.created_at ∧
      t.material = tp0.material ∧ t.updated_at = 7 ∧
      tp0.updated_at < t.updated_at) ∧
    (∃ b, (Routes.patch_brew stC3 "br1"
        ⟨some .steeping, none, some (some 9)⟩ 7).1 = some b ∧
      b.status = .steeping ∧ b.completed_at = some 9 ∧ b.notes = br0.notes ∧
      b.updated_at = 7) := by
  have h := claim_C5_patch_semantics stC3 "tp1" "br1" 7
    ⟨some "New", none, none, none, some none⟩ ⟨some .steeping, none, some (some 9)⟩
  constructor
  · obtain ⟨t, hfst, hid, hcr, hupd, hinc, hname_n, hname_s, hmat_n, hmat_s,
      hcap_n, hcap_s, hsty_n, hsty_s, hdesc_n, hdesc_s, hstored⟩ :=
      h.1 tp0 (by decide)
    exact ⟨t, hfst, hname_s "New" rfl, hdesc_s none rfl, hcr, hmat_n rfl,
      hupd, hinc (by decide)⟩
  · obtain ⟨b, hfst, hid, hcr, hupd, htpid, hteid, hwt, hstart, hinc,
      hstat_n, hstat_s, hnot_n, hnot_s, hcomp_n, hcomp_s, hstored⟩ :=
      h.2 br0 (by decide)
    exact ⟨b, hfst, hstat_s _ rfl, hcomp_s _ rfl, hnot_n rfl, hupd⟩

/-- A conditionally applied filter is a filter by a conditional predicate. -/
theorem cond_filter (c : Bool) (p : α → Bool) (l : List α) :
    (if c then l.filter p else l) =
      l.filter (fun b => if c then p b else true) := by
  cases c <;> simp

/-- The sequential filters of `list_teapots` agree with the single
AND-filter by `teapotMatches`. -/
theorem list_teapots_eq (st : MemoryStore) (q : TeapotQuery) :
    st.list_teapots q =
      (((st.teapots.filter (teapotMatches q)).drop
          ((q.page - 1) * q.limit)).take q.limit,
       (st.teapots.filter (teapotMatches q)).length) := by
  rcases q with ⟨page, limit, material, style⟩
  cases material <;> cases style <;>
    · simp only [MemoryStore.list_teapots]
      delta teapotMatches
      simp only [List.filter_filter]
      simp [Bool.and_comm, Bool.and_left_comm, Bool.and_assoc]

/-- The sequential filters of `list_teas` agree with the single AND-filter
by `teaMatches`. -/
theorem list_teas_eq (st : MemoryStore) (q : TeaQuery) :
    st.list_teas q =
      (((st.teas.filter (teaMatches q)).drop
          ((q.page - 1) * q.limit)).take q.limit,
       (st.teas.filter (teaMatches q)).length) := by
  rcases q with ⟨page, limit, ty, caff⟩
  cases ty <;> cases caff <;>
    · simp only [MemoryStore.list_teas]
      delta teaMatches
      simp only [List.filter_filter]
      simp [Bool.and_comm, Bool.and_left_comm, Bool.and_assoc]

/-- The sequential, truthiness-guarded filters of `list_brews` agree with
the single AND-filter by `brewMatches`. -/
theorem list_brews_eq (st : MemoryStore) (q : BrewQuery) :
    st.list_brews q =
      (((st.brews.filter (brewMatches q)).drop
          ((q.page - 1) * q.limit)).take q.limit,
       (st.brews.filter (brewMatches q)).length) := by
  rcases q with ⟨page, limit, status, tid, eid⟩
  cases status <;> cases tid <;> cases eid <;>
    · simp only [MemoryStore.list_brews]
      delta brewMatches
      simp [List.filter_filter, Bool.and_comm, Bool.and_left_comm,
        Bool.and_assoc] <;>
        (constructor <;> (repeat' split) <;>
          first
          | rfl
          | simp_all [List.filter_filter, Bool.and_comm, Bool.and_left_comm,
              Bool.and_assoc])

/-- C6: each list operation returns the window
`[(page-1)*limit, (page-1)*limit + limit)` of the filtered collection in
stored order, reports the total before pagination, and returns an empty
slice (not an error) when the window starts at or past the end. -/
theorem claim_C6_pagination_window (st : MemoryStore) (qt : TeapotQuery)
    (qb : BrewQuery) (_hp1 : 1 ≤ qt.page) (_hl1 : 1 ≤ qt.limit)
    (_hp2 : 1 ≤ qb.page) (_hl2 : 1 ≤ qb.limit) :
    ((st.list_teapots qt).2 = (st.teapots.filter (teapotMatches qt)).length ∧
     (st.list_teapots qt).1 =
       ((st.teapots.filter (teapotMatches qt)).drop
         ((qt.page - 1) * qt.limit)).take qt.limit ∧
     ((st.teapots.filter (teapotMatches qt)).length ≤
         (qt.page - 1) * qt.limit →
       (st.list_teapots qt).1 = [])) ∧
    ((st.list_brews qb).2 = (st.brews.filter (brewMatches qb)).length ∧
     (st.list_brews qb).1 =
       ((st.brews.filter (brewMatches qb)).drop
         ((qb.page - 1) * qb.limit)).take qb.limit ∧
     ((st.brews.filter (brewMatches qb)).length ≤ (qb.page - 1) * qb.limit →
       (st.list_brews qb).1 = [])) := by
  rw [list_teapots_eq, list_brews_eq]
  refine ⟨⟨rfl, rfl, ?_⟩, rfl, rfl, ?_⟩ <;>
    · intro h
      simp [List.drop_eq_nil_of_le h]

theorem claim_C6_witness :
    (stC3.list_brews ⟨2, 1, none, none, none⟩).2 = 1 ∧
    (stC3.list_brews ⟨2, 1, none, none, none⟩).1 = [] := by
  have h := claim_C6_pagination_window stC3 ⟨1, 20, none, none⟩
    ⟨2, 1, none, none, none⟩ (by decide) (by decide) (by decide) (by decide)
  refine ⟨?_, h.2.2.2 (by decide)⟩
  rw [h.2.1]
  decide

/-- C7 counterexample: `list_brews` with a supplied empty-string teapot-id
filter counts a brew whose `teapot_id` differs from the supplied value
(Python truthiness skips a falsy filter), so "matching iff equal to every
supplied filter field" fails as stated. -/
theorem claim_C7_counterexample :
    (stC3.list_brews ⟨1, 20, none, some "", none⟩).2 = 1 ∧
    (stC3.list_brews ⟨1, 20, none, some "", none⟩).1 = [br0] ∧
    brewMatchesLiteral ⟨1, 20, none, some "", none⟩ br0 = false ∧
    br0.teapot_id ≠ "" := by
  refine ⟨?_, ?_, ?_, ?_⟩ <;> decide

/-- C7 (amended): an entity is counted as matching iff it equals every
supplied *effective* filter field (logical AND): every supplied enum
filter and every supplied non-empty string filter constrains by equality,
an absent filter imposes no constraint, and — as the Python truthiness
guard makes unavoidable — a supplied empty-string id filter on brews also
imposes no constraint. -/
theorem claim_C7_filter_semantics (st : MemoryStore) (qt : TeaQuery)
    (qb : BrewQuery) :
    ((st.list_teas qt).2 = st.teas.countP (teaMatches qt) ∧
     (∀ t ∈ (st.list_teas qt).1, teaMatches qt t = true ∧ t ∈ st.teas) ∧
     (qt.type = none → qt.caffeine_level = none →
       (st.list_teas qt).2 = st.teas.length)) ∧
    ((st.list_brews qb).2 = st.brews.countP (brewMatches qb) ∧
     (∀ b ∈ (st.list_brews qb).1, brewMatches qb b = true ∧ b ∈ st.brews)) := by
  rw [list_teas_eq, list_brews_eq]
  refine ⟨⟨?_, ?_, ?_⟩, ?_, ?_⟩
  · rw [List.countP_eq_length_filter]
  · intro t ht
    have hmem : t ∈ st.teas.filter (teaMatches qt) :=
      List.drop_subset _ _ (List.take_subset _ _ ht)
    have hf := List.mem_filter.mp hmem
    exact ⟨hf.2, hf.1⟩
  · intro hty hcaff
    simp [teaMatches, hty, hcaff]
  · rw [List.countP_eq_length_filter]
  · intro b hb
    have hmem : b ∈ st.brews.filter (brewMatches qb) :=
      List.drop_subset _ _ (List.take_subset _ _ hb)
    have hf := List.mem_filter.mp hmem
    exact ⟨hf.2, hf.1⟩

theorem claim_C7_witness :
    (stC3.list_brews ⟨1, 20, some .preparing, none, none⟩).2 = 1 ∧
    brewMatches ⟨1, 20, some .preparing, none, none⟩ br0 = true := by
  have h := claim_C7_filter_semantics stC3 ⟨1, 20, none, none⟩
    ⟨1, 20, some .preparing, none, none⟩
  refine ⟨?_, (h.2.2 br0 ?_).1⟩
  · rw [h.2.1]
    decide
  · decide

/-! ### C1: steep numbering under concurrency -/

/-- Initial store for the race: one brew, no steeps yet. -/
def stC1 : MemoryStore :=
  { teapots := [tp0], teas := [te0], brews := [br0], steeps := [] }

/-- Parameters of the first racing steep-creation request. -/
def p1C1 : SteepParams :=
  { sid := "s1", duration_seconds := 30, rating := none, notes := none,
    now := 3 }

/-- Parameters of the second racing steep-creation request. -/
def p2C1 : SteepParams :=
  { sid := "s2", duration_seconds := 45, rating := none, notes := none,
    now := 3 }

/-- C1 counterexample: under the interleaving `t1 reads, t2 reads,
t1 inserts, t2 inserts` — possible because the route calls
`get_next_steep_number` and `create_steep` as two separate locked store
operations — both concurrent steep creations for the same brew receive
steep number 1, and the brew ends up with the duplicated steep numbers
`[1, 1]`. -/
theorem claim_C1_counterexample :
    (runRace "br1" p1C1 p2C1 stC1 [true, false, true, false]).t1 =
      .done 1 ∧
    (runRace "br1" p1C1 p2C1 stC1 [true, false, true, false]).t2 =
      .done 1 ∧
    steepNums
      (runRace "br1" p1C1 p2C1 stC1 [true, false, true, false]).store "br1"
      = [1, 1] := by
  refine ⟨?_, ?_, ?_⟩ <;> decide

/-- C1 (amended): the read of the current maximum and the insertion of the
new steep are two separate exclusive-access scopes, so only creations that
do not interleave are numbered reliably: a steep creation run to
completion without interleaving, starting from a brew whose steep numbers
are exactly `1..k`, receives number `k+1` and leaves the brew's numbers
exactly `1..k+1` — sequential creations therefore yield `1, 2, 3, …` with
no gaps or repeats, while racing creations can collide. -/
theorem claim_C1_sequential_numbering (st : MemoryStore) (bid : String)
    (p : SteepParams) (k : Nat) (hinv : SteepNumbersGapFree st bid k)
    (hfresh : ∀ s ∈ st.steeps, s.id ≠ p.sid) :
    (st.get_next_steep_number bid).1 = k + 1 ∧
    SteepNumbersGapFree
      (((st.get_next_steep_number bid).2).create_steep
        (mkSteep bid p (st.get_next_steep_number bid).1)) bid (k + 1) := by
  obtain ⟨hnodup, hiff⟩ := hinv
  have hsnd : (st.get_next_steep_number bid).2 = st := by
    simp only [MemoryStore.get_next_steep_number]
    split <;> rfl
  have hnum : (st.get_next_steep_number bid).1 = k + 1 := by
    rcases Nat.eq_zero_or_pos k with hk | hk
    · subst hk
      have hnil : steepNums st bid = [] := by
        apply List.eq_nil_iff_forall_not_mem.mpr
        intro m hm
        have := (hiff m).mp hm
        omega
      have hfnil : st.steeps.filter (fun s => s.brew_id == bid) = [] := by
        have := congrArg List.length hnil
        simp only [steepNums, List.length_map] at this
        exact List.eq_nil_of_length_eq_zero this
      simp [MemoryStore.get_next_steep_number, hfnil]
    · have hkmem : k ∈ steepNums st bid := (hiff k).mpr ⟨hk, le_refl k⟩
      have hne : steepNums st bid ≠ [] := by
        intro hnil
        rw [hnil] at hkmem
        exact List.not_mem_nil k hkmem
      have hmax_mem : (steepNums st bid).foldr max 0 ∈ steepNums st bid :=
        foldr_max_mem hne
      have hmax_le : (steepNums st bid).foldr max 0 ≤ k :=
        ((hiff _).mp hmax_mem).2
      have hle_max : k ≤ (steepNums st bid).foldr max 0 :=
        le_foldr_max hkmem
      have hmax : (steepNums st bid).foldr max 0 = k :=
        Nat.le_antisymm hmax_le hle_max
      have hfne :
          (st.steeps.filter (fun s => s.brew_id == bid)).isEmpty = false := by
        rw [List.isEmpty_eq_false]
        intro hnil
        apply hne
        simp [steepNums, hnil]
      simp only [MemoryStore.get_next_steep_number, hfne,
        Bool.false_eq_true, if_false]
      rw [show (st.steeps.filter (fun s => s.brew_id == bid)).map
            Steep.steep_number = steepNums st bid from rfl, hmax]
  refine ⟨hnum, ?_⟩
  rw [hsnd, hnum]
  have happend : (st.create_steep (mkSteep bid p (k + 1))).steeps =
      st.steeps ++ [mkSteep bid p (k + 1)] := by
    apply dictSet_fresh
    unfold dictGet
    rw [List.find?_eq_none]
    intro s hs
    simp [hfresh s hs, mkSteep]
  have hnums : steepNums (st.create_steep (mkSteep bid p (k + 1))) bid =
      steepNums st bid ++ [k + 1] := by
    simp only [steepNums, happend, List.filter_append, List.map_append]
    simp [mkSteep]
  constructor
  · rw [hnums]
    have hnotmem : (k + 1) ∉ steepNums st bid := by
      intro hm
      have := ((hiff _).mp hm).2
      omega
    simp [List.nodup_append, hnodup, hnotmem]
  · intro m
    rw [hnums]
    simp only [List.mem_append, List.mem_singleton]
    constructor
    · rintro (hm | rfl)
      · have := (hiff m).mp hm
        omega
      · omega
    · intro hm
      by_cases hmk : m ≤ k
      · exact Or.inl ((hiff m).mpr ⟨hm.1, hmk⟩)
      · right
        omega

theorem claim_C1_witness :
    (stC1.get_next_steep_number "br1").1 = 0 + 1 ∧
    1 ∈ steepNums
      (((stC1.get_next_steep_number "br1").2).create_steep
        (mkSteep "br1" p1C1 (stC1.get_next_steep_number "br1").1)) "br1" := by
  have hinv : SteepNumbersGapFree stC1 "br1" 0 := by
    refine ⟨by simp [steepNums, stC1], fun m => ?_⟩
    simp only [steepNums, stC1]
    simp
    omega
  have h := claim_C1_sequential_numbering stC1 "br1" p1C1 0 hinv
    (by simp [stC1])
  exact ⟨h.1, (h.2.2 1).mpr (by omega)⟩

end TeaApi
